import Mathlib

/-!
Verification of the HuntPilot job-tracker backend's business logic:
the keyword match engine (`matchResume` in
`HuntPilot_backend/controllers/jobController.js`), the resume-tailoring
merge (`enhanceExperience` / `tailorResume` in
`HuntPilot_backend/controllers/resumeController.js`), and the
owner-scoped job CRUD operations (`getJobById`, `updateJob`,
`deleteJob` in `jobController.js`).

Each JavaScript function is shallowly embedded as an executable Lean
definition: string arrays become `List String`, document lookups become
`Option`-valued inputs, JavaScript number arithmetic is modelled in
exact rational arithmetic (all quantities involved are small integers
and ratios thereof), and `Math.round` is `fun q => Int.floor (q + 1/2)`,
which agrees with JavaScript's round-half-toward-positive-infinity on
all arguments.
-/

namespace HuntPilot

/-- JavaScript `Math.round`: rounds to the nearest integer, halves toward
positive infinity; equals `floor (q + 1/2)` for every real argument,
here over the exact rationals. -/
def mathRound (q : ℚ) : ℤ := ⌊q + 1/2⌋

/-- Embedding of `jobController.js` line 73:
`const matched = user.resumeKeywords.filter(Kw => job.keywords.includes(Kw));`
The iteration base is the user's resume keyword list `U`; membership is
tested in the job keyword list `J`. -/
def matched (resumeKeywords jobKeywords : List String) : List String :=
  resumeKeywords.filter (fun kw => jobKeywords.contains kw)

/-- Embedding of `jobController.js` line 74:
`const missing = job.keywords.filter(kw => !matched.includes(kw));` -/
def missing (resumeKeywords jobKeywords : List String) : List String :=
  jobKeywords.filter (fun kw => !(matched resumeKeywords jobKeywords).contains kw)

/-- Embedding of `jobController.js` line 75:
`const score = job.keywords.length ? Math.round((matched.length / job.keywords.length) * 100) : 0;`
The array length is truthy exactly when it is nonzero. -/
def score (resumeKeywords jobKeywords : List String) : ℤ :=
  if jobKeywords.length ≠ 0 then
    mathRound (((matched resumeKeywords jobKeywords).length : ℚ)
      / (jobKeywords.length : ℚ) * 100)
  else 0

/-- The transient `MatchResult` value returned as JSON by `matchResume`
on the success path (`res.json({ matched, missing, score })`). -/
structure MatchResult where
  matched : List String
  missing : List String
  score : ℤ
deriving DecidableEq, Repr

/-- The success-path body of `matchResume`, lines 73-77. -/
def matchResult (resumeKeywords jobKeywords : List String) : MatchResult :=
  { matched := matched resumeKeywords jobKeywords
    missing := missing resumeKeywords jobKeywords
    score := score resumeKeywords jobKeywords }

/-- A user record as read by `matchResume`: mongoose's `User` schema
declares `resumeKeywords: [String]`, an array path that defaults to `[]`
on existing documents, so an existing user always yields a string list. -/
structure UserRec where
  name : String
  email : String
  resumeKeywords : List String
deriving DecidableEq, Repr

/-- A job-application record from the `JobApplication` schema: owned by
exactly one user via the required `userId` foreign key; `keywords:
[String]` defaults to `[]`. Ids and user ids are modelled as naturals
standing for the distinct ObjectId values. -/
structure JobRec where
  id : ℕ
  userId : ℕ
  position : String
  company : String
  status : String
  location : Option String
  notes : Option String
  keywords : List String
deriving DecidableEq, Repr

/-- The JSON responses `matchResume` can produce: the 200 success body
with the match result, or an error status with an error message. -/
inductive MatchResponse where
  | ok (result : MatchResult)
  | err (status : ℕ) (error : String)
deriving DecidableEq, Repr

/-- The HTTP status of a match response (`res.json` on the success path
responds 200). -/
def MatchResponse.statusCode : MatchResponse → ℕ
  | .ok _ => 200
  | .err s _ => s

/-- Embedding of `matchResume`, `jobController.js` lines 68-82. The two
`findById` lookups may return no document (`none`). The source does not
guard them: on a missing user or job, the property access
`user.resumeKeywords` / `job.keywords` throws a TypeError, which the
surrounding catch block answers with
`res.status(500).json({ error: 'Matching failed' })`. -/
def matchResume (user : Option UserRec) (job : Option JobRec) :
    MatchResponse :=
  match user, job with
  | some u, some j => .ok (matchResult u.resumeKeywords j.keywords)
  | _, _ => .err 500 "Matching failed"

/-- Responses of the owner-scoped job CRUD handlers. -/
inductive JobResponse where
  | ok (job : JobRec)
  | deletedMsg
  | notFound
deriving DecidableEq, Repr

/-- MongoDB `findOne` with filter on both `_id` and `userId`: the first
stored document matching both, if any. -/
def findOne (store : List JobRec) (jobId userId : ℕ) : Option JobRec :=
  store.find? (fun j => j.id == jobId && j.userId == userId)

/-- Embedding of `getJobById`, `jobController.js` lines 31-42:
`findOne` filters on both the requested id from the path and the
authenticated user's id; a miss answers 404 `'Job not found'`. -/
def getJobById (store : List JobRec) (userId jobId : ℕ) : JobResponse :=
  match findOne store jobId userId with
  | none => .notFound
  | some j => .ok j

/-- The updatable fields carried in `req.body` of `updateJob`; absent
fields leave the stored value in place. -/
structure JobUpdate where
  position : Option String
  company : Option String
  status : Option String
  location : Option String
  notes : Option String
  keywords : Option (List String)
deriving DecidableEq, Repr

/-- Applying a `req.body` update document to a stored job record. -/
def applyUpdate (u : JobUpdate) (j : JobRec) : JobRec :=
  { j with
    position := u.position.getD j.position
    company := u.company.getD j.company
    status := u.status.getD j.status
    location := (u.location.map some).getD j.location
    notes := (u.notes.map some).getD j.notes
    keywords := u.keywords.getD j.keywords }

/-- MongoDB `findOneAndUpdate` with option `new: true`: updates the first
document matching the filter in place and returns the updated document;
no match leaves the collection untouched and returns null. -/
def findOneAndUpdate (store : List JobRec) (p : JobRec → Bool)
    (f : JobRec → JobRec) : Option JobRec × List JobRec :=
  match store with
  | [] => (none, [])
  | j :: js =>
    if p j then (some (f j), f j :: js)
    else
      let r := findOneAndUpdate js p f
      (r.1, j :: r.2)

/-- MongoDB `findOneAndDelete`: removes the first document matching the
filter and returns it; no match leaves the collection untouched. -/
def findOneAndDelete (store : List JobRec) (p : JobRec → Bool) :
    Option JobRec × List JobRec :=
  match store with
  | [] => (none, [])
  | j :: js =>
    if p j then (some j, js)
    else
      let r := findOneAndDelete js p
      (r.1, j :: r.2)

/-- Embedding of `updateJob`, `jobController.js` lines 45-56: the filter
names both `_id` and `userId`; a miss answers 404 `'Job not found'`. The
pair is the response together with the job store after the request. -/
def updateJob (store : List JobRec) (userId jobId : ℕ) (body : JobUpdate) :
    JobResponse × List JobRec :=
  let r := findOneAndUpdate store
    (fun j => j.id == jobId && j.userId == userId) (applyUpdate body)
  match r.1 with
  | none => (.notFound, r.2)
  | some j => (.ok j, r.2)

/-- Embedding of `deleteJob`, `jobController.js` lines 59-67. -/
def deleteJob (store : List JobRec) (userId jobId : ℕ) :
    JobResponse × List JobRec :=
  let r := findOneAndDelete store
    (fun j => j.id == jobId && j.userId == userId)
  match r.1 with
  | none => (.notFound, r.2)
  | some _ => (.deletedMsg, r.2)

/-- JavaScript `a || b` for a possibly-undefined string `a`: `undefined`
and the empty string are falsy, any other string is truthy. -/
def jsOrString (v : Option String) (d : String) : String :=
  match v with
  | none => d
  | some s => if s = "" then d else s

/-- JavaScript `a || b` for a possibly-undefined number `a`: `undefined`
and `0` are falsy. -/
def jsOrNum (v : Option ℤ) (d : ℤ) : ℤ :=
  match v with
  | none => d
  | some z => if z = 0 then d else z

/-- An experience entry as handled by `enhanceExperience`. The stored
schema gives entries title, company, duration and description; the
function's output additionally carries a `keywords` array, and on input
any existing `keywords` value is overridden unconditionally, so the
entry record carries the field. -/
structure ExperienceEntry where
  title : String
  company : String
  duration : String
  description : String
  keywords : List String
deriving DecidableEq, Repr

/-- One element of the service's `enhanced_experience` array; each field
may be absent from the JSON object. -/
structure Enhancement where
  enhanced_description : Option String
  relevant_keywords : Option (List String)
  optimized_title : Option String
deriving DecidableEq, Repr

/-- The body of the arrow function inside `enhanceExperience`
(`resumeController.js` lines 96-104), applied to one original entry and
the (possibly absent) enhancement at the same index:
`description: enhancement?.enhanced_description || exp.description`,
`keywords: enhancement?.relevant_keywords || []` (an array, even empty,
is truthy; an absent one gives `undefined || []`),
`title: enhancement?.optimized_title || exp.title`. -/
def enhanceEntry (exp : ExperienceEntry) (enhancement : Option Enhancement) :
    ExperienceEntry :=
  { exp with
    description :=
      jsOrString (enhancement.bind (fun e => e.enhanced_description))
        exp.description
    keywords := (enhancement.bind (fun e => e.relevant_keywords)).getD []
    title :=
      jsOrString (enhancement.bind (fun e => e.optimized_title)) exp.title }

/-- Embedding of `enhanceExperience`, `resumeController.js` lines 95-105:
`originalExp.map((exp, index) => ...)` pairs each original entry with
`aiEnhancements[index]`, which is undefined past the end of the
enhancement array. -/
def enhanceExperience (originalExp : List ExperienceEntry)
    (aiEnhancements : List Enhancement) : List ExperienceEntry :=
  originalExp.mapIdx (fun index exp => enhanceEntry exp aiEnhancements[index]?)

/-- An education entry of the stored resume data. -/
structure EducationEntry where
  degree : String
  institution : String
  year : String
deriving DecidableEq, Repr

/-- A project entry of the stored resume data. -/
structure ProjectEntry where
  name : String
  description : String
  technologies : String
deriving DecidableEq, Repr

/-- The structured resume data submitted with a tailoring request. -/
structure ResumeData where
  summary : String
  experience : List ExperienceEntry
  education : List EducationEntry
  skills : String
  projects : List ProjectEntry
deriving DecidableEq, Repr

/-- The JSON body a successful tailoring-service call returns; every
field may be absent. -/
structure AiResult where
  tailored_summary : Option String
  enhanced_experience : Option (List Enhancement)
  optimized_skills : Option String
  match_score : Option ℤ
  suggestions : Option (List String)
deriving DecidableEq, Repr

/-- The transient `TailoredResume` value assembled on the success path of
`tailorResume`. -/
structure TailoredResume where
  summary : String
  experience : List ExperienceEntry
  skills : String
  education : List EducationEntry
  projects : List ProjectEntry
  matchScore : ℤ
  suggestions : List String
deriving DecidableEq, Repr

/-- The success-path assembly of `tailorResume`,
`resumeController.js` lines 68-76: each field falls back to the
submitted resume data under JavaScript `||`, education and projects are
kept as is, and `enhanced_experience || []` feeds the positional
merge. -/
def buildTailoredResume (resumeData : ResumeData) (aiResult : AiResult) :
    TailoredResume :=
  { summary := jsOrString aiResult.tailored_summary resumeData.summary
    experience := enhanceExperience resumeData.experience
      (aiResult.enhanced_experience.getD [])
    skills := jsOrString aiResult.optimized_skills resumeData.skills
    education := resumeData.education
    projects := resumeData.projects
    matchScore := jsOrNum aiResult.match_score 0
    suggestions := aiResult.suggestions.getD [] }

/-- A tailoring request body: the structured resume data plus the job
description, title and company forwarded to the service. -/
structure TailorRequest where
  resumeData : ResumeData
  jobDescription : String
  jobTitle : String
  company : String
deriving DecidableEq, Repr

/-- The outcome of one call to the external tailoring service: the fetch
may fail to reach the service, or an HTTP response arrives with its
`ok` flag and parsed JSON body. -/
inductive ServiceOutcome where
  | unreachable
  | httpResponse (ok : Bool) (body : AiResult)
deriving DecidableEq, Repr

/-- The JSON responses `tailorResume` can produce. -/
inductive TailorResponse where
  | ok (tailoredResume : TailoredResume)
  | err (status : ℕ) (message : String)
deriving DecidableEq, Repr

/-- The stored records a tailoring request could in principle touch: the
user records (holding `resumeKeywords`) and the job records (holding
`keywords`). `tailorResume` performs no database write at all. -/
structure StoredRecords where
  users : List UserRec
  jobs : List JobRec
deriving DecidableEq, Repr

/-- Embedding of `tailorResume`, `resumeController.js` lines 42-92. The
service is modelled as the sequence of outcomes successive calls would
see; the handler performs exactly one `fetch` (attempt count returned
last). An unreachable service makes `fetch` throw; a non-ok response
triggers `throw new Error('AI service error')`; both land in the catch
block, which answers
`res.status(500).json({ success: false, message: 'Error tailoring resume. Please try again.' })`.
No path writes to the stores, which are returned unchanged. -/
def tailorResume (req : TailorRequest) (service : ℕ → ServiceOutcome)
    (store : StoredRecords) : TailorResponse × StoredRecords × ℕ :=
  match service 0 with
  | .unreachable =>
    (.err 500 "Error tailoring resume. Please try again.", store, 1)
  | .httpResponse ok body =>
    if ok then (.ok (buildTailoredResume req.resumeData body), store, 1)
    else (.err 500 "Error tailoring resume. Please try again.", store, 1)

/-- A service enhancement object carrying none of its three fields. -/
def emptyEnhancement : Enhancement :=
  { enhanced_description := none
    relevant_keywords := none
    optimized_title := none }

/-- A `req.body` update document carrying no fields. -/
def emptyJobUpdate : JobUpdate :=
  { position := none
    company := none
    status := none
    location := none
    notes := none
    keywords := none }

/-- A concrete job record used to instantiate theorems. -/
def sampleJob : JobRec :=
  { id := 1
    userId := 1
    position := "Engineer"
    company := "Acme"
    status := "applied"
    location := none
    notes := none
    keywords := ["python"] }

/-- A concrete user record used to instantiate theorems. -/
def sampleUser : UserRec :=
  { name := "Ada"
    email := "ada@example.com"
    resumeKeywords := ["python"] }

/-- A concrete experience entry whose keywords array is nonempty, so any
rewriting of the keywords field is observable. -/
def sampleEntryKept : ExperienceEntry :=
  { title := "Developer"
    company := "Acme"
    duration := "2 years"
    description := "Built services"
    keywords := ["legacy"] }

/-- A second concrete experience entry (the one the service enhances in
the length-2 scenario). -/
def sampleEntryA : ExperienceEntry :=
  { title := "Intern"
    company := "Initech"
    duration := "1 year"
    description := "Wrote scripts"
    keywords := [] }

/-- A concrete service enhancement with all fields present. -/
def sampleEnhancement : Enhancement :=
  { enhanced_description := some "Delivered scalable services"
    relevant_keywords := some ["python"]
    optimized_title := some "Senior Developer" }

/-- Concrete structured resume data. -/
def sampleResumeData : ResumeData :=
  { summary := "Engineer"
    experience := [sampleEntryKept]
    education := []
    skills := "python"
    projects := [] }

/-- A concrete tailoring request. -/
def sampleTailorRequest : TailorRequest :=
  { resumeData := sampleResumeData
    jobDescription := "Build python services"
    jobTitle := "Engineer"
    company := "Acme" }

/-- A concrete stored-records snapshot. -/
def sampleStore : StoredRecords :=
  { users := [sampleUser]
    jobs := [sampleJob] }

/-- Every element of `matched U J` lies in `J` (membership was tested with
`job.keywords.includes`). -/
lemma mem_of_mem_matched {U J : List String} {kw : String}
    (h : kw ∈ matched U J) : kw ∈ U ∧ kw ∈ J := by
  simpa [matched] using h

/-- The matched list is a sublist of `U`, hence never longer than `U`. -/
lemma matched_length_le (U J : List String) :
    (matched U J).length ≤ U.length :=
  List.length_filter_le _ _

/-- With a duplicate-free resume keyword list, the matched list is no longer
than the job keyword list. -/
lemma matched_length_le_of_nodup {U : List String} (J : List String)
    (hU : U.Nodup) : (matched U J).length ≤ J.length :=
  List.Subperm.length_le
    ((hU.filter _).subperm (fun _ hkw => (mem_of_mem_matched hkw).2))

/-- The score is never negative. -/
lemma score_nonneg (U J : List String) : 0 ≤ score U J := by
  unfold score
  split
  · exact Int.le_floor.mpr (by positivity)
  · exact le_refl 0

/-- C1. Claimed: for every resume keyword list U and job keyword list J
(including lists with duplicate elements) the score is in [0,100], and 0
when J is empty. The [0,100] upper bound is FALSE when U contains
duplicates, because `matched` iterates U without deduplication:
U = ["a","a"], J = ["a"] gives matched = ["a","a"] and
score = round(2/1*100) = 200. This theorem exhibits that concrete
violation. -/
theorem score_exceeds_100_on_duplicates :
    score ["a", "a"] ["a"] = 200 ∧ ¬(score ["a", "a"] ["a"] ≤ 100) := by
  constructor
  · norm_num [score, matched, mathRound]
  · norm_num [score, matched, mathRound]

/-- C1 (amended): the score is always a non-negative integer, equals 0
whenever J is empty, and lies in [0,100] whenever the resume keyword
list U is duplicate-free. -/
theorem score_range (U J : List String) :
    0 ≤ score U J ∧ (J = [] → score U J = 0) ∧
      (U.Nodup → score U J ≤ 100) := by
  refine ⟨score_nonneg U J, fun hJ => by simp [score, hJ], fun hU => ?_⟩
  unfold score
  split
  · rename_i hlen
    have hn : (0 : ℚ) < (J.length : ℚ) := by
      exact_mod_cast Nat.pos_of_ne_zero hlen
    have hm : ((matched U J).length : ℚ) ≤ (J.length : ℚ) := by
      exact_mod_cast matched_length_le_of_nodup J hU
    have hq : ((matched U J).length : ℚ) / (J.length : ℚ) * 100 ≤ 100 := by
      calc ((matched U J).length : ℚ) / (J.length : ℚ) * 100
          ≤ 1 * 100 := by
            have := (div_le_one hn).mpr hm
            nlinarith
        _ = 100 := one_mul 100
    have : mathRound (((matched U J).length : ℚ) / (J.length : ℚ) * 100)
        < 101 := by
      rw [mathRound]
      exact Int.floor_lt.mpr (by linarith)
    omega
  · norm_num

/-- C1 witness: the amended bounds hold at U = ["python"], J = []. -/
theorem score_range_witness :
    0 ≤ score ["python"] [] ∧ score ["python"] [] = 0 ∧
      score ["python"] [] ≤ 100 := by
  have h := score_range ["python"] []
  exact ⟨h.1, h.2.1 rfl, h.2.2 (by decide)⟩

/-- C2. The matched list is computed by iterating U and testing membership
in J: every matched keyword occurs in both U and J, the matched list is
never longer than U, and the multiplicity of any job keyword in the
matched list equals its multiplicity in U (duplicates in U are
preserved). -/
theorem matched_iteration_base (U J : List String) :
    (∀ kw, kw ∈ matched U J → kw ∈ U ∧ kw ∈ J) ∧
      (matched U J).length ≤ U.length ∧
      (∀ kw, kw ∈ J → (matched U J).count kw = U.count kw) := by
  refine ⟨fun kw hkw => mem_of_mem_matched hkw, matched_length_le U J,
    fun kw hkw => ?_⟩
  unfold matched
  exact List.count_filter (by simpa using hkw)

/-- C2 witness: instantiated at U = ["sql","python","sql"],
J = ["sql","aws"]; the duplicate "sql" is preserved in the output. -/
theorem matched_iteration_base_witness :
    ("sql" ∈ matched ["sql", "python", "sql"] ["sql", "aws"] ∧
        "sql" ∈ (["sql", "python", "sql"] : List String) ∧
        "sql" ∈ (["sql", "aws"] : List String)) ∧
      (matched ["sql", "python", "sql"] ["sql", "aws"]).length ≤ 3 ∧
      (matched ["sql", "python", "sql"] ["sql", "aws"]).count "sql" = 2 := by
  have h := matched_iteration_base ["sql", "python", "sql"] ["sql", "aws"]
  have h1 := h.1 "sql" (by decide)
  refine ⟨⟨by decide, h1.1, h1.2⟩, h.2.1, ?_⟩
  have h2 := h.2.2 "sql" (by decide)
  rw [h2]
  decide

/-- C3. The missing list consists exactly of the job keywords not present
in the matched list, so missing and matched are disjoint; when U is
empty, matched is empty and missing is all of J. -/
theorem missing_is_complement (U J : List String) :
    (∀ kw, kw ∈ missing U J ↔ kw ∈ J ∧ kw ∉ matched U J) ∧
      (∀ kw, kw ∈ missing U J → kw ∉ matched U J) ∧
      (U = [] → matched U J = [] ∧ missing U J = J) := by
  refine ⟨fun kw => ?_, fun kw hkw => ?_, fun hU => ?_⟩
  · simp [missing]
  · simp only [missing, List.mem_filter] at hkw
    simpa using hkw.2
  · subst hU
    constructor
    · rfl
    · simp [missing, matched]

/-- C3 witness: Scenario 2 of the spec, U = [], J = ["python"]:
matched = [], missing = ["python"], and "python" is missing because it is
a job keyword absent from the matched list. -/
theorem missing_is_complement_witness :
    (matched [] ["python"] = [] ∧ missing [] ["python"] = ["python"]) ∧
      ("python" ∈ missing [] ["python"] ↔
        "python" ∈ (["python"] : List String) ∧
          "python" ∉ matched [] ["python"]) ∧
      "python" ∉ matched [] ["python"] := by
  have h := missing_is_complement [] ["python"]
  exact ⟨h.2.2 rfl, h.1 "python", h.2.1 "python" (by decide)⟩

/-- C4. For non-empty J the score is the round-half-up (Mathlib `round`)
of |matched| / |J| × 100 computed in exact rational arithmetic, and
Scenario 1 holds concretely: U = ["python","sql"],
J = ["python","sql","aws"] gives matched = ["python","sql"],
missing = ["aws"], score = 67. -/
theorem score_rounding_formula (U J : List String) (h : J ≠ []) :
    score U J =
        round (((matched U J).length : ℚ) / (J.length : ℚ) * 100) ∧
      matchResult ["python", "sql"] ["python", "sql", "aws"] =
        { matched := ["python", "sql"], missing := ["aws"], score := 67 } := by
  constructor
  · have hlen : J.length ≠ 0 := fun h0 => h (List.length_eq_zero.mp h0)
    rw [score, if_pos hlen, mathRound, round_eq]
  · have hm : matched ["python", "sql"] ["python", "sql", "aws"]
        = ["python", "sql"] := by decide
    have hmiss : missing ["python", "sql"] ["python", "sql", "aws"]
        = ["aws"] := by decide
    have hs : score ["python", "sql"] ["python", "sql", "aws"] = 67 := by
      norm_num [score, matched, mathRound]
    simp [matchResult, hm, hmiss, hs]

/-- C4 witness: the rounding formula applied at Scenario 1's inputs
yields 67 = round(2/3 × 100). -/
theorem score_rounding_formula_witness :
    score ["python", "sql"] ["python", "sql", "aws"] =
        round (((matched ["python", "sql"] ["python", "sql", "aws"]).length : ℚ)
          / ((["python", "sql", "aws"] : List String).length : ℚ) * 100) ∧
      matchResult ["python", "sql"] ["python", "sql", "aws"] =
        { matched := ["python", "sql"], missing := ["aws"], score := 67 } :=
  score_rounding_formula ["python", "sql"] ["python", "sql", "aws"]
    (by decide)

/-- C5. The match computation is deterministic and idempotent: any two
runs on equal inputs produce identical matched, missing and score. -/
theorem match_deterministic (U₁ U₂ J₁ J₂ : List String)
    (hU : U₁ = U₂) (hJ : J₁ = J₂) :
    (matchResult U₁ J₁).matched = (matchResult U₂ J₂).matched ∧
      (matchResult U₁ J₁).missing = (matchResult U₂ J₂).missing ∧
      (matchResult U₁ J₁).score = (matchResult U₂ J₂).score := by
  subst hU; subst hJ
  exact ⟨rfl, rfl, rfl⟩

/-- C5 witness: two runs at U = ["python"], J = ["python"] agree. -/
theorem match_deterministic_witness :
    (matchResult ["python"] ["python"]).matched
        = (matchResult ["python"] ["python"]).matched ∧
      (matchResult ["python"] ["python"]).missing
        = (matchResult ["python"] ["python"]).missing ∧
      (matchResult ["python"] ["python"]).score
        = (matchResult ["python"] ["python"]).score :=
  match_deterministic ["python"] ["python"] ["python"] ["python"] rfl rfl

/-- C6 counterexample. Claimed: a match request whose user or job record
is absent fails with a NotFound-equivalent error. On the code, a missing
user record makes the unguarded `user.resumeKeywords` access throw, and
the catch block answers status 500 with the generic body
`'Matching failed'` — not a 404. -/
theorem match_absent_user_not_notfound :
    matchResume none (some sampleJob) = .err 500 "Matching failed" ∧
      (matchResume none (some sampleJob)).statusCode = 500 ∧
      ¬(matchResume none (some sampleJob)).statusCode = 404 := by
  refine ⟨rfl, rfl, ?_⟩
  decide

/-- C6 (amended): whenever the referenced user or job record is absent,
`matchResume` fails with the generic 500 response `'Matching failed'`
(the unguarded property access throws and the catch-all answers), not
with a NotFound-equivalent error. -/
theorem match_absent_record_generic_error (user : Option UserRec)
    (job : Option JobRec) (h : user = none ∨ job = none) :
    matchResume user job = .err 500 "Matching failed" := by
  rcases h with h | h
  · subst h
    cases job <;> rfl
  · subst h
    cases user <;> rfl

/-- C6 witness: the amended statement at an absent user and present
job. -/
theorem match_absent_record_generic_error_witness :
    matchResume none (some sampleJob) = .err 500 "Matching failed" :=
  match_absent_record_generic_error none (some sampleJob) (Or.inl rfl)

/-- When no stored job carries both the requested id and the requesting
user's id, the owner-scoped `findOne` filter misses. -/
lemma findOne_eq_none_of_not_owner {store : List JobRec} {i u : ℕ}
    (h : ∀ j ∈ store, j.id = i → j.userId ≠ u) :
    findOne store i u = none := by
  apply List.find?_eq_none.mpr
  intro j hj
  simp only [Bool.and_eq_true, beq_iff_eq, not_and]
  exact fun hid => h j hj hid

/-- The owner-scoped filter evaluates to false on every stored job when
none is owned by the requester under the requested id. -/
lemma owner_filter_false {store : List JobRec} {i u : ℕ}
    (h : ∀ j ∈ store, j.id = i → j.userId ≠ u) :
    ∀ j ∈ store, (j.id == i && j.userId == u) = false := by
  intro j hj
  by_cases hid : j.id = i
  · simp [hid, h j hj hid]
  · simp [hid]

/-- `findOneAndUpdate` with a filter matching nothing returns null and
leaves the collection unchanged. -/
lemma findOneAndUpdate_no_match {store : List JobRec} {p : JobRec → Bool}
    {f : JobRec → JobRec} (h : ∀ j ∈ store, p j = false) :
    findOneAndUpdate store p f = (none, store) := by
  induction store with
  | nil => rfl
  | cons j js ih =>
    rw [findOneAndUpdate, h j (List.mem_cons_self j js)]
    simp only [Bool.false_eq_true, if_false]
    rw [ih (fun x hx => h x (List.mem_cons_of_mem j hx))]

/-- `findOneAndDelete` with a filter matching nothing returns null and
leaves the collection unchanged. -/
lemma findOneAndDelete_no_match {store : List JobRec} {p : JobRec → Bool}
    (h : ∀ j ∈ store, p j = false) :
    findOneAndDelete store p = (none, store) := by
  induction store with
  | nil => rfl
  | cons j js ih =>
    rw [findOneAndDelete, h j (List.mem_cons_self j js)]
    simp only [Bool.false_eq_true, if_false]
    rw [ih (fun x hx => h x (List.mem_cons_of_mem j hx))]

/-- C9. Job records are owner-scoped: `getJobById` only ever returns a
job owned by the requesting user under the requested id, and when every
stored job with the requested id belongs to a different user, all three
of read, update and delete answer `'Job not found'` and the job store is
unchanged. -/
theorem job_ops_owner_scoped (store : List JobRec) (u i : ℕ)
    (body : JobUpdate) :
    (∀ j, getJobById store u i = .ok j → j.userId = u ∧ j.id = i) ∧
      ((∀ j ∈ store, j.id = i → j.userId ≠ u) →
        getJobById store u i = .notFound ∧
          updateJob store u i body = (.notFound, store) ∧
          deleteJob store u i = (.notFound, store)) := by
  constructor
  · intro j hj
    unfold getJobById at hj
    cases hf : findOne store i u with
    | none => rw [hf] at hj; exact absurd hj (by simp)
    | some j' =>
      rw [hf] at hj
      have hj' : j' = j := by
        simpa using hj
      subst hj'
      have hp := List.find?_some hf
      simp only [Bool.and_eq_true, beq_iff_eq] at hp
      exact ⟨hp.2, hp.1⟩
  · intro h
    have hfo := findOne_eq_none_of_not_owner h
    have hp := owner_filter_false h
    refine ⟨?_, ?_, ?_⟩
    · unfold getJobById
      rw [hfo]
    · unfold updateJob
      rw [findOneAndUpdate_no_match hp]
    · unfold deleteJob
      rw [findOneAndDelete_no_match hp]

/-- C9 witness: user 2 requests job id 1, which is owned by user 1: the
read yields 404 and update and delete leave the store unchanged; and the
only-owner-visible direction instantiated on the returned job of a
successful read by user 1. -/
theorem job_ops_owner_scoped_witness :
    (sampleJob.userId = 1 ∧ sampleJob.id = 1) ∧
      getJobById [sampleJob] 2 1 = .notFound ∧
        updateJob [sampleJob] 2 1
            { position := none, company := none, status := none,
              location := none, notes := none, keywords := none }
          = (.notFound, [sampleJob]) ∧
        deleteJob [sampleJob] 2 1 = (.notFound, [sampleJob]) := by
  constructor
  · exact (job_ops_owner_scoped [sampleJob] 1 1
      { position := none, company := none, status := none,
        location := none, notes := none, keywords := none }).1
      sampleJob (by decide)
  · exact (job_ops_owner_scoped [sampleJob] 2 1
      { position := none, company := none, status := none,
        location := none, notes := none, keywords := none }).2
      (by decide)

/-- Merging an entry with an absent enhancement keeps its text fields and
resets its keywords array. -/
lemma enhanceEntry_none (e : ExperienceEntry) :
    enhanceEntry e none = { e with keywords := [] } := rfl

/-- The merged list is indexwise the per-entry merge of the original
entry with the enhancement at the same index. -/
lemma enhanceExperience_getElem? (o : List ExperienceEntry)
    (a : List Enhancement) (i : ℕ) :
    (enhanceExperience o a)[i]? = (o[i]?).map (fun e => enhanceEntry e a[i]?) := by
  rcases Nat.lt_or_ge i o.length with h | h
  · rw [enhanceExperience, List.getElem?_eq_getElem (by simpa using h),
      List.getElem?_eq_getElem h]
    simp [List.getElem_mapIdx]
  · rw [enhanceExperience, List.getElem?_eq_none (by simpa using h),
      List.getElem?_eq_none h]
    rfl

/-- C7 counterexample. Claimed: every entry at an index with no
corresponding enhancement is left unchanged. On the code, the merge
unconditionally writes `keywords: enhancement?.relevant_keywords || []`,
so an entry beyond the enhancement array has its keywords array reset:
with one entry and an empty enhancement array the output differs from
the input. -/
theorem enhance_beyond_length_not_unchanged :
    enhanceExperience [sampleEntryKept] [] ≠ [sampleEntryKept] ∧
      enhanceExperience [sampleEntryKept] []
        = [{ sampleEntryKept with keywords := [] }] := by
  constructor
  · decide
  · decide

/-- C7 (amended): the merge is positional — output entry i is the merge
of experience entry i with enhancement i — the output has the length of
the experience array (no crash on a shorter enhancement array), and
every entry at an index with no corresponding enhancement keeps its
title, company, duration and description while its keywords array is
reset to empty. -/
theorem enhance_positional_merge (o : List ExperienceEntry)
    (a : List Enhancement) :
    (enhanceExperience o a).length = o.length ∧
      (∀ i : ℕ, (enhanceExperience o a)[i]?
        = (o[i]?).map (fun e => enhanceEntry e a[i]?)) ∧
      (∀ i : ℕ, a.length ≤ i → (enhanceExperience o a)[i]?
        = (o[i]?).map (fun e => { e with keywords := [] })) := by
  refine ⟨by simp [enhanceExperience], enhanceExperience_getElem? o a,
    fun i hi => ?_⟩
  rw [enhanceExperience_getElem? o a i, List.getElem?_eq_none hi]
  cases o[i]? <;> rfl

/-- C7 witness: the length-2 scenario with a single enhancement — the
first entry is enhanced positionally, the second keeps its text fields
with an emptied keywords array. -/
theorem enhance_positional_merge_witness :
    (enhanceExperience [sampleEntryA, sampleEntryKept]
        [sampleEnhancement]).length = 2 ∧
      (enhanceExperience [sampleEntryA, sampleEntryKept]
          [sampleEnhancement])[0]?
        = some (enhanceEntry sampleEntryA (some sampleEnhancement)) ∧
      (enhanceExperience [sampleEntryA, sampleEntryKept]
          [sampleEnhancement])[1]?
        = some { sampleEntryKept with keywords := [] } := by
  have h := enhance_positional_merge [sampleEntryA, sampleEntryKept]
    [sampleEnhancement]
  refine ⟨h.1, ?_, ?_⟩
  · rw [h.2.1 0]
    rfl
  · rw [h.2.2 1 (by decide)]
    rfl

/-- C10. The merged experience list always has exactly the length of the
original list, and an output entry whose index has no corresponding
enhancement, or whose enhancement carries none of the three fields,
keeps the original title and description but has its keywords field set
to the empty array. -/
theorem enhance_length_and_keyword_default (o : List ExperienceEntry)
    (a : List Enhancement) :
    (enhanceExperience o a).length = o.length ∧
      (∀ i : ℕ, a.length ≤ i → (enhanceExperience o a)[i]?
        = (o[i]?).map (fun e => { e with keywords := [] })) ∧
      (∀ i : ℕ, a[i]? = some emptyEnhancement →
        (enhanceExperience o a)[i]?
          = (o[i]?).map (fun e => { e with keywords := [] })) := by
  refine ⟨by simp [enhanceExperience], fun i hi => ?_, fun i hi => ?_⟩
  · rw [enhanceExperience_getElem? o a i, List.getElem?_eq_none hi]
    cases o[i]? <;> rfl
  · rw [enhanceExperience_getElem? o a i, hi]
    cases o[i]? <;> rfl

/-- C10 witness: with one entry and an all-absent-fields enhancement, the
output keeps title and description and gets empty keywords; the same
holds one position past the enhancement array. -/
theorem enhance_length_and_keyword_default_witness :
    (enhanceExperience [sampleEntryKept, sampleEntryA]
        [emptyEnhancement]).length = 2 ∧
      (enhanceExperience [sampleEntryKept, sampleEntryA]
          [emptyEnhancement])[1]?
        = some { sampleEntryA with keywords := [] } ∧
      (enhanceExperience [sampleEntryKept, sampleEntryA]
          [emptyEnhancement])[0]?
        = some { sampleEntryKept with keywords := [] } := by
  have h := enhance_length_and_keyword_default [sampleEntryKept, sampleEntryA]
    [emptyEnhancement]
  refine ⟨h.1, ?_, ?_⟩
  · rw [h.2.1 1 (by decide)]
    rfl
  · rw [h.2.2 0 (by decide)]
    rfl

/-- C8. When the tailoring service is unreachable or answers a non-ok
status, `tailorResume` makes exactly one service call (no retry), its
response depends only on that first outcome, the caller receives the
generic tailoring-failed 500 error, and the stored user and job keyword
records are unchanged. -/
theorem tailor_failure_single_attempt (req : TailorRequest)
    (service : ℕ → ServiceOutcome) (store : StoredRecords)
    (hfail : service 0 = .unreachable ∨
      ∃ body, service 0 = .httpResponse false body) :
    (tailorResume req service store).2.2 = 1 ∧
      (∀ service' : ℕ → ServiceOutcome, service' 0 = service 0 →
        tailorResume req service' store = tailorResume req service store) ∧
      (tailorResume req service store).1
        = .err 500 "Error tailoring resume. Please try again." ∧
      (tailorResume req service store).2.1 = store := by
  have hdet : ∀ service' : ℕ → ServiceOutcome, service' 0 = service 0 →
      tailorResume req service' store = tailorResume req service store := by
    intro service' hs
    unfold tailorResume
    rw [hs]
  rcases hfail with h | ⟨body, h⟩
  · exact ⟨by simp [tailorResume, h], hdet, by simp [tailorResume, h],
      by simp [tailorResume, h]⟩
  · exact ⟨by simp [tailorResume, h], hdet, by simp [tailorResume, h],
      by simp [tailorResume, h]⟩

/-- C8 witness: an unreachable service at a concrete request and store —
one attempt, the generic 500 error, stores unchanged. -/
theorem tailor_failure_single_attempt_witness :
    (tailorResume sampleTailorRequest (fun _ => ServiceOutcome.unreachable)
        sampleStore).2.2 = 1 ∧
      (∀ service' : ℕ → ServiceOutcome,
        service' 0 = (fun _ => ServiceOutcome.unreachable) 0 →
        tailorResume sampleTailorRequest service' sampleStore
          = tailorResume sampleTailorRequest
              (fun _ => ServiceOutcome.unreachable) sampleStore) ∧
      (tailorResume sampleTailorRequest (fun _ => ServiceOutcome.unreachable)
          sampleStore).1
        = .err 500 "Error tailoring resume. Please try again." ∧
      (tailorResume sampleTailorRequest (fun _ => ServiceOutcome.unreachable)
          sampleStore).2.1 = sampleStore :=
  tailor_failure_single_attempt sampleTailorRequest
    (fun _ => ServiceOutcome.unreachable) sampleStore (Or.inl rfl)

end HuntPilot
